import Mathlib

/-!
Shallow embedding of the Options-Payoff-Lab contract-valuation library
(`src/core/exotic.py`, plus the Contract base described by the spec), and
proofs of the spec's claims about it.

Conventions of the embedding:

* A price path (`spot`) is a `List ℚ`; numpy float arithmetic on path values
  is idealised as exact rational arithmetic wherever the computation stays in
  the reals, which is every operation the code performs except the Asian
  geometric branch.
* The Asian geometric branch applies `np.log`, which on non-positive inputs
  does not raise: it produces `-inf` (at `0`) or `nan` (below `0`) together
  with a mere `RuntimeWarning`, and those special values then flow through
  `np.mean`, `np.exp`, `-` and `np.maximum`.  To keep that behaviour the
  Asian computation is carried out in `NpVal`, IEEE-754 double semantics
  restricted to the values this pipeline can produce: a real, `+inf`, `-inf`
  or `nan`.
* `np.max` / `np.min` / `spot[-1]` raise on an empty array; every claim about
  them quantifies over non-empty paths only, so they are embedded as total
  functions returning a junk value `0` at `[]`, used by no theorem.
* Python control flow that can fall off the end of a function (LookBack with
  an unrecognised selector returns `None`) is an `Option`; a raised exception
  (the unbound local `moyenne` in `AsianOption.payoff` for an unrecognised
  `average_type`) is an `Except` error.
-/

/-- Elementwise reduction behind `np.max(spot)` on a rational path: the fold
of `max` over the list.  `np.max` raises on an empty array; the `[]` case
returns the junk value `0` and is outside every claim's domain. -/
def npMax : List ℚ → ℚ
  | [] => 0
  | x :: xs => xs.foldl max x

/-- Elementwise reduction behind `np.min(spot)`; junk value `0` at `[]`. -/
def npMin : List ℚ → ℚ
  | [] => 0
  | x :: xs => xs.foldl min x

/-- Python `spot[-1]`, the last element; junk value `0` at `[]` (Python
raises `IndexError` there; no claim touches that case). -/
def spotLast (spot : List ℚ) : ℚ := spot.getLastD 0

/-- `BarrierOption` (src/core/exotic.py): fields in the order of
`__init__(strike, expiry, barrier, premium, is_call, is_knock_in, is_up)`;
the base class stores `strike` as `K`. -/
structure BarrierOption where
  K : ℚ
  expiry : ℚ
  barrier : ℚ
  premium : ℚ
  is_call : Bool
  is_knock_in : Bool
  is_up : Bool

/-- `BarrierOption.payoff` (src/core/exotic.py lines 52-74): touch test
(`np.max(spot) >= barrier` if `is_up` else `np.min(spot) <= barrier`),
activation (`is_knock_in` keeps `has_hit_barrier`, knock-out negates it),
then the vanilla terminal payoff when active, `0.0` otherwise. -/
def BarrierOption.payoff (o : BarrierOption) (spot : List ℚ) : ℚ :=
  let has_hit_barrier : Bool :=
    if o.is_up then decide (npMax spot ≥ o.barrier) else decide (npMin spot ≤ o.barrier)
  let is_active : Bool := if o.is_knock_in then has_hit_barrier else !has_hit_barrier
  if is_active then
    if o.is_call then max 0 (spotLast spot - o.K) else max 0 (o.K - spotLast spot)
  else 0

/-- `LookBackOption` (src/core/exotic.py): fields in the order of
`__init__(strike, expiry, premium, is_call, type_option)`.  `main.py`
constructs the floating-strike instance with `strike=None`; the spec (§3)
permits an absent strike exactly because the floating branch never reads it,
so `K` is an arbitrary rational there (structural unuse is proved below). -/
structure LookBackOption where
  K : ℚ
  expiry : ℚ
  premium : ℚ
  is_call : Bool
  type_option : String

/-- `LookBackOption.payoff` (src/core/exotic.py lines 93-103): `'Fixe'`
compares a path extreme to `K` (floored at 0), `'Flottant'` replaces the
strike by a path extreme (no flooring); any other selector falls off the end
of the Python function and returns `None`. -/
def LookBackOption.payoff (o : LookBackOption) (spot : List ℚ) : Option ℚ :=
  if o.type_option = "Fixe" then
    if o.is_call then some (max 0 (npMax spot - o.K)) else some (max 0 (o.K - npMin spot))
  else if o.type_option = "Flottant" then
    if o.is_call then some (spotLast spot - npMin spot) else some (npMax spot - spotLast spot)
  else
    none

/-- Modelled from the spec: `core/base.py` (the `Option` contract base class)
is not under `src/`; spec §4.1 defines `netResult(path) = payoff(path) -
premium`, defined once in the base and inherited unchanged (in the code the
method is named `calculate_pnl`, see its call in `src/main.py` line 53). -/
def BarrierOption.calculate_pnl (o : BarrierOption) (spot : List ℚ) : ℚ :=
  o.payoff spot - o.premium

/-- Modelled from the spec: `core/base.py` is not under `src/`; the inherited
`calculate_pnl` computes `self.payoff(path) - self.premium`, so it returns a
number exactly when `payoff` does (`None - premium` would raise in Python;
the claims only quantify over paths on which `payoff` returns a number). -/
def LookBackOption.calculate_pnl (o : LookBackOption) (spot : List ℚ) : Option ℚ :=
  (o.payoff spot).map (fun v => v - o.premium)

section NpValSemantics

/-- Values an IEEE-754 double can take in the Asian geometric pipeline:
a (finite) real, one of the infinities, or `nan`. -/
inductive NpVal where
  | real (x : ℝ)
  | posInf
  | negInf
  | nan

/-- `np.log` on a double: real logarithm on positives, `-inf` at `0`, `nan`
below `0` (numpy emits a `RuntimeWarning` in the last two cases but raises
nothing and returns the special value). -/
noncomputable def npLog (x : ℚ) : NpVal :=
  if 0 < x then .real (Real.log (x : ℝ)) else if x = 0 then .negInf else .nan

/-- IEEE-754 addition on the values of `NpVal`: `nan` is absorbing, opposite
infinities give `nan`, an infinity absorbs reals. -/
def NpVal.add : NpVal → NpVal → NpVal
  | .nan, _ => .nan
  | _, .nan => .nan
  | .posInf, .negInf => .nan
  | .negInf, .posInf => .nan
  | .posInf, _ => .posInf
  | _, .posInf => .posInf
  | .negInf, _ => .negInf
  | _, .negInf => .negInf
  | .real x, .real y => .real (x + y)

/-- IEEE-754 subtraction on the values of `NpVal`. -/
def NpVal.sub : NpVal → NpVal → NpVal
  | .nan, _ => .nan
  | _, .nan => .nan
  | .posInf, .posInf => .nan
  | .negInf, .negInf => .nan
  | .posInf, _ => .posInf
  | .negInf, _ => .negInf
  | .real x, .real y => .real (x - y)
  | .real _, .posInf => .negInf
  | .real _, .negInf => .posInf

/-- Division of a double by a positive array length (the denominator of
`np.mean`); infinities and `nan` are preserved. -/
noncomputable def NpVal.divNat : NpVal → ℕ → NpVal
  | .real x, n => .real (x / n)
  | v, _ => v

/-- `np.exp` on a double: `exp(-inf) = 0`, `exp(+inf) = +inf`,
`exp(nan) = nan`. -/
noncomputable def NpVal.exp : NpVal → NpVal
  | .real x => .real (Real.exp x)
  | .posInf => .posInf
  | .negInf => .real 0
  | .nan => .nan

/-- `np.maximum` on doubles: `nan` propagates, otherwise the larger value. -/
def npMaximum : NpVal → NpVal → NpVal
  | .nan, _ => .nan
  | _, .nan => .nan
  | .posInf, _ => .posInf
  | _, .posInf => .posInf
  | .negInf, b => b
  | a, .negInf => a
  | .real x, .real y => .real (max x y)

/-- Sum of an array of doubles (`np.sum`, the numerator of `np.mean`),
starting from `0.0`. -/
def npSumV (xs : List NpVal) : NpVal := xs.foldl NpVal.add (.real 0)

/-- `np.mean` of an array of doubles: `nan` on an empty array (numpy warns
and returns `nan`), else the sum divided by the length. -/
noncomputable def npMeanV (xs : List NpVal) : NpVal :=
  if xs.length = 0 then .nan else (npSumV xs).divNat xs.length

/-- `np.mean` of the (real-valued) price path itself, for the arithmetic
branch. -/
def npMeanR (spot : List ℚ) : NpVal :=
  if spot.length = 0 then .nan else .real ((spot.sum / (spot.length : ℚ) : ℚ) : ℝ)

end NpValSemantics

/-- Python exception classes the embedded code can raise. -/
inductive PyErr where
  | unboundLocal
deriving DecidableEq

/-- `AsianOption` (src/core/exotic.py): fields in the order of
`__init__(strike, expiry, premium, is_call, average_type)`. -/
structure AsianOption where
  K : ℚ
  expiry : ℚ
  premium : ℚ
  is_call : Bool
  average_type : String

/-- The `moyenne` computation of `AsianOption.payoff` (src/core/exotic.py
lines 28-31): `np.mean(spot)` for `'arithmetic'`,
`np.exp(np.mean(np.log(spot)))` for `'geometric'`; any other `average_type`
leaves the local `moyenne` unbound, so its first use raises
`UnboundLocalError`. -/
noncomputable def AsianOption.moyenne (o : AsianOption) (spot : List ℚ) : Except PyErr NpVal :=
  if o.average_type = "arithmetic" then .ok (npMeanR spot)
  else if o.average_type = "geometric" then .ok (npMeanV (spot.map npLog)).exp
  else .error .unboundLocal

/-- `AsianOption.payoff` (src/core/exotic.py lines 22-36): the reference
average, then `np.maximum(0, moyenne - K)` for a call and
`np.maximum(0, K - moyenne)` for a put. -/
noncomputable def AsianOption.payoff (o : AsianOption) (spot : List ℚ) : Except PyErr NpVal :=
  match o.moyenne spot with
  | .error e => .error e
  | .ok m =>
    if o.is_call then .ok (npMaximum (.real 0) (m.sub (.real (o.K : ℝ))))
    else .ok (npMaximum (.real 0) ((NpVal.real (o.K : ℝ)).sub m))

/-- Modelled from the spec: `core/base.py` is not under `src/`; the inherited
`calculate_pnl` computes `self.payoff(path) - self.premium`, propagating any
exception `payoff` raises. -/
noncomputable def AsianOption.calculate_pnl (o : AsianOption) (spot : List ℚ) :
    Except PyErr NpVal :=
  (o.payoff spot).map (fun v => v.sub (.real (o.premium : ℝ)))

/-!  Spec-side definitions, written from the spec's words, to be compared
with the code embedding above. -/

/-- Spec §4.2/§4.4: the vanilla terminal payoff, `max(0, S - K)` for a call
and `max(0, K - S)` for a put. -/
def vanillaSpec (is_call : Bool) (K S : ℚ) : ℚ :=
  if is_call then max 0 (S - K) else max 0 (K - S)

/-- Spec §4.4 step 1, stated observation-wise: the path touches the barrier
iff some observation is at or beyond it (at or above when `is_up`, at or
below otherwise) — both bounds inclusive. -/
def touchedSpec (o : BarrierOption) (spot : List ℚ) : Prop :=
  if o.is_up then ∃ x ∈ spot, o.barrier ≤ x else ∃ x ∈ spot, x ≤ o.barrier

/-- Spec §4.4 step 2: `active = touched` for knock-in, `active = not touched`
for knock-out. -/
def activeSpec (o : BarrierOption) (spot : List ℚ) : Prop :=
  if o.is_knock_in then touchedSpec o spot else ¬ touchedSpec o spot

instance (o : BarrierOption) (spot : List ℚ) : Decidable (touchedSpec o spot) := by
  unfold touchedSpec; split <;> infer_instance

instance (o : BarrierOption) (spot : List ℚ) : Decidable (activeSpec o spot) := by
  unfold activeSpec; split <;> infer_instance

/-- Spec §4.3: the arithmetic mean of all observations, as a real. -/
def arithMeanSpec (spot : List ℚ) : ℝ := ((spot.sum / (spot.length : ℚ) : ℚ) : ℝ)

/-- Spec §4.3: the exponential of the mean of the natural logs of all
observations (the geometric mean). -/
noncomputable def geoMeanSpec (spot : List ℚ) : ℝ :=
  Real.exp ((spot.map fun x : ℚ => Real.log (x : ℝ)).sum / (spot.length : ℝ))

/-- Spec §4.3: given the reference average `A`, the Asian payoff is
`max(0, A - K)` for a call and `max(0, K - A)` for a put. -/
noncomputable def asianSpec (is_call : Bool) (K : ℚ) (A : ℝ) : ℝ :=
  if is_call then max 0 (A - (K : ℝ)) else max 0 ((K : ℝ) - A)

/-! Helper lemmas about the fold-based extrema. -/

theorem foldl_max_init_le (xs : List ℚ) (a : ℚ) : a ≤ xs.foldl max a := by
  induction xs generalizing a with
  | nil => exact le_refl a
  | cons x xs ih => exact le_trans (le_max_left a x) (ih (max a x))

theorem foldl_max_le_of_mem (xs : List ℚ) (a x : ℚ) (hx : x ∈ xs) : x ≤ xs.foldl max a := by
  induction xs generalizing a with
  | nil => cases hx
  | cons y ys ih =>
    rcases List.mem_cons.mp hx with h | h
    · subst h
      exact le_trans (le_max_right a x) (foldl_max_init_le ys (max a x))
    · exact ih (max a y) h

theorem foldl_max_cases (xs : List ℚ) (a : ℚ) : xs.foldl max a = a ∨ xs.foldl max a ∈ xs := by
  induction xs generalizing a with
  | nil => exact Or.inl rfl
  | cons x xs ih =>
    rcases ih (max a x) with h | h
    · rcases max_cases a x with ⟨hm, _⟩ | ⟨hm, _⟩
      · exact Or.inl (by rw [List.foldl_cons, h, hm])
      · exact Or.inr (by rw [List.foldl_cons, h, hm]; exact List.mem_cons_self x xs)
    · exact Or.inr (List.mem_cons_of_mem x h)

theorem npMax_mem (spot : List ℚ) (h : spot ≠ []) : npMax spot ∈ spot := by
  match spot with
  | [] => exact absurd rfl h
  | x :: xs =>
    rcases foldl_max_cases xs x with hc | hc
    · rw [npMax, hc]; exact List.mem_cons_self x xs
    · rw [npMax]; exact List.mem_cons_of_mem x hc

theorem le_npMax_of_mem (spot : List ℚ) (x : ℚ) (hx : x ∈ spot) : x ≤ npMax spot := by
  match spot with
  | [] => cases hx
  | y :: ys =>
    rcases List.mem_cons.mp hx with h | h
    · subst h; exact foldl_max_init_le ys x
    · exact foldl_max_le_of_mem ys y x h

theorem foldl_min_le_init (xs : List ℚ) (a : ℚ) : xs.foldl min a ≤ a := by
  induction xs generalizing a with
  | nil => exact le_refl a
  | cons x xs ih => exact le_trans (ih (min a x)) (min_le_left a x)

theorem foldl_min_le_of_mem (xs : List ℚ) (a x : ℚ) (hx : x ∈ xs) : xs.foldl min a ≤ x := by
  induction xs generalizing a with
  | nil => cases hx
  | cons y ys ih =>
    rcases List.mem_cons.mp hx with h | h
    · subst h
      exact le_trans (foldl_min_le_init ys (min a x)) (min_le_right a x)
    · exact ih (min a y) h

theorem foldl_min_cases (xs : List ℚ) (a : ℚ) : xs.foldl min a = a ∨ xs.foldl min a ∈ xs := by
  induction xs generalizing a with
  | nil => exact Or.inl rfl
  | cons x xs ih =>
    rcases ih (min a x) with h | h
    · rcases min_cases a x with ⟨hm, _⟩ | ⟨hm, _⟩
      · exact Or.inl (by rw [List.foldl_cons, h, hm])
      · exact Or.inr (by rw [List.foldl_cons, h, hm]; exact List.mem_cons_self x xs)
    · exact Or.inr (List.mem_cons_of_mem x h)

theorem npMin_mem (spot : List ℚ) (h : spot ≠ []) : npMin spot ∈ spot := by
  match spot with
  | [] => exact absurd rfl h
  | x :: xs =>
    rcases foldl_min_cases xs x with hc | hc
    · rw [npMin, hc]; exact List.mem_cons_self x xs
    · rw [npMin]; exact List.mem_cons_of_mem x hc

theorem npMin_le_of_mem (spot : List ℚ) (x : ℚ) (hx : x ∈ spot) : npMin spot ≤ x := by
  match spot with
  | [] => cases hx
  | y :: ys =>
    rcases List.mem_cons.mp hx with h | h
    · subst h; exact foldl_min_le_init ys x
    · exact foldl_min_le_of_mem ys y x h

theorem spotLast_eq_getLast (spot : List ℚ) (h : spot ≠ []) :
    spotLast spot = spot.getLast h := by
  rw [spotLast, List.getLastD_eq_getLast?, List.getLast?_eq_getLast spot h, Option.getD_some]

theorem npMax_ge_iff (spot : List ℚ) (h : spot ≠ []) (b : ℚ) :
    b ≤ npMax spot ↔ ∃ x ∈ spot, b ≤ x :=
  ⟨fun hle => ⟨npMax spot, npMax_mem spot h, hle⟩,
   fun ⟨x, hx, hbx⟩ => le_trans hbx (le_npMax_of_mem spot x hx)⟩

theorem npMin_le_iff (spot : List ℚ) (h : spot ≠ []) (b : ℚ) :
    npMin spot ≤ b ↔ ∃ x ∈ spot, x ≤ b :=
  ⟨fun hle => ⟨npMin spot, npMin_mem spot h, hle⟩,
   fun ⟨x, hx, hxb⟩ => le_trans (npMin_le_of_mem spot x hx) hxb⟩

/-! The barrier payoff as a single conditional on the spec-side activation
predicate; shared by the touch/activation and in-out parity results. -/

theorem barrier_payoff_eq_ite (o : BarrierOption) (spot : List ℚ) (h : spot ≠ []) :
    o.payoff spot =
      if activeSpec o spot then vanillaSpec o.is_call o.K (spot.getLast h) else 0 := by
  have htouch : (if o.is_up then decide (npMax spot ≥ o.barrier)
      else decide (npMin spot ≤ o.barrier)) = true ↔ touchedSpec o spot := by
    unfold touchedSpec
    cases o.is_up <;>
      simp [ge_iff_le, npMax_ge_iff spot h, npMin_le_iff spot h]
  have hactOf : ∀ b : Bool, (b = true ↔ touchedSpec o spot) →
      ((if o.is_knock_in then b else !b) = true ↔ activeSpec o spot) := by
    intro b hb
    unfold activeSpec
    cases o.is_knock_in <;> cases hbb : b <;> simp_all
  have hact := hactOf _ htouch
  simp only [BarrierOption.payoff]
  by_cases ha : activeSpec o spot
  · rw [if_pos (hact.mpr ha), if_pos ha, vanillaSpec, spotLast_eq_getLast spot h]
  · rw [if_neg (fun hb => ha (hact.mp hb)), if_neg ha]

/-- Claim C1: for every non-empty price path, `BarrierOption.payoff` computes
touch inclusively (some observation at or above the barrier when `is_up`, at
or below it otherwise), activation as `touched` for knock-in and `not
touched` for knock-out, and returns the vanilla terminal payoff on the last
path element when active and exactly `0` when inactive. -/
theorem barrier_payoff_touch_activation (o : BarrierOption) (spot : List ℚ) (h : spot ≠ []) :
    (activeSpec o spot → o.payoff spot = vanillaSpec o.is_call o.K (spot.getLast h)) ∧
    (¬ activeSpec o spot → o.payoff spot = 0) := by
  rw [barrier_payoff_eq_ite o spot h]
  constructor <;> intro ha <;> simp [ha]

/-- Witness for C1, the spec §8 scenario: the up-and-out call with barrier
114 on the sample path is knocked out (the path reaches 115), so its payoff
is 0. -/
theorem barrier_payoff_touch_activation_witness :
    ¬ activeSpec ⟨105, 1, 114, 0, true, false, true⟩
        [100, 102, 104, 108, 107, 112, 115, 113, 110, 112] ∧
      BarrierOption.payoff ⟨105, 1, 114, 0, true, false, true⟩
        [100, 102, 104, 108, 107, 112, 115, 113, 110, 112] = 0 :=
  ⟨by decide,
   (barrier_payoff_touch_activation ⟨105, 1, 114, 0, true, false, true⟩
     [100, 102, 104, 108, 107, 112, 115, 113, 110, 112] (by decide)).2 (by decide)⟩

/-- Claim C5: for every non-empty path and shared strike, barrier, direction
and type, the knock-in payoff plus the knock-out payoff equals the vanilla
terminal payoff. -/
theorem barrier_in_out_parity (K T B prem : ℚ) (is_call is_up : Bool) (spot : List ℚ)
    (h : spot ≠ []) :
    BarrierOption.payoff ⟨K, T, B, prem, is_call, true, is_up⟩ spot +
      BarrierOption.payoff ⟨K, T, B, prem, is_call, false, is_up⟩ spot =
      vanillaSpec is_call K (spot.getLast h) := by
  rw [barrier_payoff_eq_ite _ spot h, barrier_payoff_eq_ite _ spot h]
  have hsame : touchedSpec ⟨K, T, B, prem, is_call, false, is_up⟩ spot ↔
      touchedSpec ⟨K, T, B, prem, is_call, true, is_up⟩ spot := Iff.rfl
  by_cases ht : touchedSpec ⟨K, T, B, prem, is_call, true, is_up⟩ spot
  · rw [if_pos (by simpa [activeSpec] using ht), if_neg (by simpa [activeSpec] using ht),
      add_zero]
  · rw [if_neg (by simpa [activeSpec] using ht), if_pos (by simpa [activeSpec] using ht),
      zero_add]

/-- Witness for C5 at the spec §8 path with barrier 114, strike 105 (up
direction, call). -/
theorem barrier_in_out_parity_witness :
    BarrierOption.payoff ⟨105, 1, 114, 0, true, true, true⟩
        [100, 102, 104, 108, 107, 112, 115, 113, 110, 112] +
      BarrierOption.payoff ⟨105, 1, 114, 0, true, false, true⟩
        [100, 102, 104, 108, 107, 112, 115, 113, 110, 112] =
      vanillaSpec true 105
        ([100, 102, 104, 108, 107, 112, 115, 113, 110, 112].getLast (by decide)) :=
  barrier_in_out_parity 105 1 114 0 true true
    [100, 102, 104, 108, 107, 112, 115, 113, 110, 112] (by decide)

/-- Claim C6: in fixed-strike mode (`'Fixe'`) the lookback payoff is
`max(0, max(path) - K)` for a call and `max(0, K - min(path))` for a put,
the extrema being characterised as the greatest / least observation of the
path; in floating-strike mode (`'Flottant'`) it is `last - min(path)` for a
call and `max(path) - last` for a put, with no flooring at zero applied and
the strike structurally unused (the payoff is invariant under any
replacement of `K`). -/
theorem lookback_payoff_modes (o : LookBackOption) (spot : List ℚ) (h : spot ≠ []) :
    (o.type_option = "Fixe" →
      ∃ M m, M ∈ spot ∧ (∀ x ∈ spot, x ≤ M) ∧ m ∈ spot ∧ (∀ x ∈ spot, m ≤ x) ∧
        o.payoff spot =
          some (if o.is_call then max 0 (M - o.K) else max 0 (o.K - m))) ∧
    (o.type_option = "Flottant" →
      ∃ M m, M ∈ spot ∧ (∀ x ∈ spot, x ≤ M) ∧ m ∈ spot ∧ (∀ x ∈ spot, m ≤ x) ∧
        o.payoff spot =
          some (if o.is_call then spot.getLast h - m else M - spot.getLast h) ∧
        ∀ k : ℚ, LookBackOption.payoff { o with K := k } spot = o.payoff spot) := by
  constructor
  · intro hty
    refine ⟨npMax spot, npMin spot, npMax_mem spot h, le_npMax_of_mem spot,
      npMin_mem spot h, npMin_le_of_mem spot, ?_⟩
    unfold LookBackOption.payoff
    rw [if_pos hty]
    cases o.is_call <;> simp
  · intro hty
    refine ⟨npMax spot, npMin spot, npMax_mem spot h, le_npMax_of_mem spot,
      npMin_mem spot h, npMin_le_of_mem spot, ?_, ?_⟩
    · unfold LookBackOption.payoff
      rw [hty, if_neg (by decide), if_pos rfl, spotLast_eq_getLast spot h]
      cases o.is_call <;> simp
    · intro k
      unfold LookBackOption.payoff
      rw [hty]
      simp

/-- Witness for C6: fixed-strike call, strike 105, on the two-point path
`[100, 112]`. -/
theorem lookback_payoff_modes_witness :
    ∃ M m, M ∈ ([100, 112] : List ℚ) ∧ (∀ x ∈ ([100, 112] : List ℚ), x ≤ M) ∧
      m ∈ ([100, 112] : List ℚ) ∧ (∀ x ∈ ([100, 112] : List ℚ), m ≤ x) ∧
      LookBackOption.payoff ⟨105, 1, 0, true, "Fixe"⟩ [100, 112] =
        some (if true then max 0 (M - 105) else max 0 (105 - m)) :=
  (lookback_payoff_modes ⟨105, 1, 0, true, "Fixe"⟩ [100, 112] (by decide)).1 rfl

/-- Claim C7: on any valid path (non-empty, all observations positive) the
floating-strike lookback payoff is non-negative even though the code applies
no flooring: the last element dominates the path minimum and is dominated by
the path maximum. -/
theorem lookback_floating_nonneg (o : LookBackOption) (spot : List ℚ) (h : spot ≠ [])
    (_hpos : ∀ x ∈ spot, 0 < x) (hfl : o.type_option = "Flottant") (v : ℚ)
    (hv : o.payoff spot = some v) : 0 ≤ v := by
  unfold LookBackOption.payoff at hv
  rw [hfl, if_neg (by decide), if_pos rfl] at hv
  have hlast : spotLast spot ∈ spot := by
    rw [spotLast_eq_getLast spot h]
    exact List.getLast_mem h
  cases hc : o.is_call
  · rw [hc] at hv
    simp at hv
    rw [← hv, sub_nonneg]
    exact le_npMax_of_mem spot _ hlast
  · rw [hc] at hv
    simp at hv
    rw [← hv, sub_nonneg]
    exact npMin_le_of_mem spot _ hlast

/-- Witness for C7: floating-strike call on `[100, 112]` pays
`112 - 100 = 12 ≥ 0`. -/
theorem lookback_floating_nonneg_witness :
    (∀ x ∈ ([100, 112] : List ℚ), 0 < x) ∧ (0 : ℚ) ≤ 12 :=
  ⟨by decide,
   lookback_floating_nonneg ⟨105, 1, 0, true, "Flottant"⟩ [100, 112] (by decide)
     (by decide) rfl 12
     (by
       unfold LookBackOption.payoff
       rw [if_neg (by decide), if_pos rfl]
       norm_num [spotLast, npMin, List.getLastD_cons, List.getLastD_nil, min_def])⟩

/-- Claim C10: `LookBackOption.payoff` recognises exactly the selector
strings `'Fixe'` and `'Flottant'`; for any other `type_option` (including
the spec's names `'fixed'` and `'floating'`) it returns `None` for every
path — the Python function falls off its end — instead of raising; for the
two recognised selectors (on a non-empty path) it returns a number. -/
theorem lookback_selector_strings (o : LookBackOption) (spot : List ℚ) :
    (o.type_option ≠ "Fixe" → o.type_option ≠ "Flottant" → o.payoff spot = none) ∧
    ((o.type_option = "Fixe" ∨ o.type_option = "Flottant") → ∃ v, o.payoff spot = some v) := by
  unfold LookBackOption.payoff
  constructor
  · intro h1 h2
    rw [if_neg h1, if_neg h2]
  · rintro (hty | hty)
    · rw [if_pos hty]
      cases o.is_call <;> exact ⟨_, rfl⟩
    · rw [hty, if_neg (by decide), if_pos rfl]
      cases o.is_call <;> exact ⟨_, rfl⟩

/-- Witness for C10: the spec's selector name `'fixed'` is not recognised
(payoff `None` on the sample two-point path), while `'Fixe'` is. -/
theorem lookback_selector_strings_witness :
    LookBackOption.payoff ⟨105, 1, 0, true, "fixed"⟩ [100, 112] = none ∧
    ∃ v, LookBackOption.payoff ⟨105, 1, 0, true, "Fixe"⟩ [100, 112] = some v :=
  ⟨(lookback_selector_strings ⟨105, 1, 0, true, "fixed"⟩ [100, 112]).1 (by decide) (by decide),
   (lookback_selector_strings ⟨105, 1, 0, true, "Fixe"⟩ [100, 112]).2 (Or.inl rfl)⟩

/-! Helper lemmas for the Asian pipeline on paths where it stays real. -/

theorem foldl_npAdd_map_real (xs : List ℝ) (a : ℝ) :
    List.foldl NpVal.add (.real a) (xs.map NpVal.real) = .real (a + xs.sum) := by
  induction xs generalizing a with
  | nil => simp
  | cons x xs ih =>
    rw [List.map_cons, List.foldl_cons]
    show List.foldl NpVal.add (.real (a + x)) (xs.map NpVal.real) = _
    rw [ih (a + x), List.sum_cons, add_assoc]

theorem npMeanV_map_real (xs : List ℝ) (h : xs ≠ []) :
    npMeanV (xs.map NpVal.real) = .real (xs.sum / xs.length) := by
  unfold npMeanV npSumV
  rw [List.length_map, if_neg (by simpa using h), foldl_npAdd_map_real, NpVal.divNat,
    zero_add]

theorem asian_moyenne_arithmetic (o : AsianOption) (spot : List ℚ)
    (ha : o.average_type = "arithmetic") (h : spot ≠ []) :
    o.moyenne spot = .ok (.real (arithMeanSpec spot)) := by
  unfold AsianOption.moyenne npMeanR arithMeanSpec
  rw [ha, if_pos rfl, if_neg (by simpa using h)]

theorem asian_moyenne_geometric_pos (o : AsianOption) (spot : List ℚ)
    (hg : o.average_type = "geometric") (h : spot ≠ []) (hpos : ∀ x ∈ spot, 0 < x) :
    o.moyenne spot = .ok (.real (geoMeanSpec spot)) := by
  unfold AsianOption.moyenne
  rw [hg, if_neg (by decide), if_pos rfl]
  have hmap : spot.map npLog = (spot.map fun x : ℚ => Real.log (x : ℝ)).map NpVal.real := by
    rw [List.map_map]
    refine List.map_congr_left fun x hx => ?_
    rw [Function.comp_apply, npLog, if_pos (hpos x hx)]
  rw [hmap, npMeanV_map_real _ (fun hm => h (by simpa using hm))]
  simp only [NpVal.exp, geoMeanSpec, List.length_map]

theorem asian_payoff_of_moyenne_real (o : AsianOption) (spot : List ℚ) (A : ℝ)
    (hm : o.moyenne spot = .ok (.real A)) :
    o.payoff spot = .ok (.real (asianSpec o.is_call o.K A)) := by
  unfold AsianOption.payoff asianSpec
  rw [hm]
  cases o.is_call <;> simp [NpVal.sub, npMaximum]

/-- Claim C2: the net-result operation (`calculate_pnl` in the code,
`netResult` in the spec) equals `payoff(path) - premium` for every variant,
on every path where `payoff` returns a number. -/
theorem calculate_pnl_eq_payoff_sub_premium (spot : List ℚ) :
    (∀ o : BarrierOption, o.calculate_pnl spot = o.payoff spot - o.premium) ∧
    (∀ (o : LookBackOption) (v : ℚ), o.payoff spot = some v →
      o.calculate_pnl spot = some (v - o.premium)) ∧
    (∀ (o : AsianOption) (x : ℝ), o.payoff spot = .ok (.real x) →
      o.calculate_pnl spot = .ok (.real (x - (o.premium : ℝ)))) := by
  refine ⟨fun o => rfl, fun o v hv => ?_, fun o x hx => ?_⟩
  · rw [LookBackOption.calculate_pnl, hv, Option.map_some']
  · rw [AsianOption.calculate_pnl, hx]
    rfl

/-- Witness for C2: lookback fixed call (payoff 7, premium 5), Asian
arithmetic call (payoff 1, premium 5) and a barrier instance on the path
`[100, 112]`. -/
theorem calculate_pnl_eq_payoff_sub_premium_witness :
    LookBackOption.calculate_pnl ⟨105, 1, 5, true, "Fixe"⟩ [100, 112] = some (7 - 5) ∧
    AsianOption.calculate_pnl ⟨105, 1, 5, true, "arithmetic"⟩ [100, 112] =
      .ok (.real (1 - ((5 : ℚ) : ℝ))) ∧
    BarrierOption.calculate_pnl ⟨105, 1, 114, 5, true, true, true⟩ [100, 112] =
      BarrierOption.payoff ⟨105, 1, 114, 5, true, true, true⟩ [100, 112] - 5 :=
  ⟨(calculate_pnl_eq_payoff_sub_premium [100, 112]).2.1 _ 7
     (by
       unfold LookBackOption.payoff
       rw [if_pos rfl]
       norm_num [npMax, max_def]),
   (calculate_pnl_eq_payoff_sub_premium [100, 112]).2.2 _ 1
     (by
       rw [asian_payoff_of_moyenne_real _ _ (arithMeanSpec [100, 112])
         (asian_moyenne_arithmetic _ _ rfl (by decide))]
       unfold asianSpec arithMeanSpec
       norm_num [max_def]),
   (calculate_pnl_eq_payoff_sub_premium [100, 112]).1 _⟩

/-- Claim C3: on a non-empty, all-positive path, the Asian payoff with
`'arithmetic'` averaging is `max(0, A - K)` (call) / `max(0, K - A)` (put)
for `A` the arithmetic mean of all observations, and with `'geometric'`
averaging the same formulas for `A` the exponential of the mean of the
natural logs of all observations. -/
theorem asian_payoff_averaging (o : AsianOption) (spot : List ℚ) (h : spot ≠ [])
    (hpos : ∀ x ∈ spot, 0 < x) :
    (o.average_type = "arithmetic" →
      o.payoff spot = .ok (.real (asianSpec o.is_call o.K (arithMeanSpec spot)))) ∧
    (o.average_type = "geometric" →
      o.payoff spot = .ok (.real (asianSpec o.is_call o.K (geoMeanSpec spot)))) :=
  ⟨fun ha => asian_payoff_of_moyenne_real o spot _ (asian_moyenne_arithmetic o spot ha h),
   fun hg => asian_payoff_of_moyenne_real o spot _
     (asian_moyenne_geometric_pos o spot hg h hpos)⟩

/-- Witness for C3: arithmetic Asian call, strike 105, on `[100, 112]`. -/
theorem asian_payoff_averaging_witness :
    (∀ x ∈ ([100, 112] : List ℚ), 0 < x) ∧
    AsianOption.payoff ⟨105, 1, 0, true, "arithmetic"⟩ [100, 112] =
      .ok (.real (asianSpec true 105 (arithMeanSpec [100, 112]))) :=
  ⟨by decide,
   (asian_payoff_averaging ⟨105, 1, 0, true, "arithmetic"⟩ [100, 112] (by decide)
     (by decide)).1 rfl⟩

/-- Claim C4 fails on the code (code bug): for a path containing a
non-positive observation the geometric Asian payoff does not raise a
`DomainError` — no such exception exists in the code, `np.log(0)` merely
warns and yields `-inf` — and the call payoff at `[0, 100]`, strike 105,
silently evaluates to the substituted value `0`. -/
theorem asian_geometric_nonpositive_silently_returns :
    AsianOption.payoff ⟨105, 1, 0, true, "geometric"⟩ [0, 100] = .ok (.real 0) := by
  unfold AsianOption.payoff AsianOption.moyenne
  rw [if_neg (by decide), if_pos rfl]
  have hlog : ([0, 100] : List ℚ).map npLog = [.negInf, .real (Real.log 100)] := by
    unfold npLog
    norm_num
  rw [hlog]
  unfold npMeanV npSumV
  norm_num [NpVal.add, NpVal.divNat, NpVal.exp, NpVal.sub, npMaximum]

/-- Claim C9: `AsianOption.payoff` returns a value only when `average_type`
is `'arithmetic'` or `'geometric'`; for any other value the local `moyenne`
is never bound and every call raises (`UnboundLocalError`), and under the
precondition that error branch is unreachable. -/
theorem asian_average_type_precondition (o : AsianOption) (spot : List ℚ) :
    (o.average_type ≠ "arithmetic" → o.average_type ≠ "geometric" →
      o.payoff spot = .error .unboundLocal) ∧
    ((o.average_type = "arithmetic" ∨ o.average_type = "geometric") →
      ∃ v, o.payoff spot = .ok v) := by
  unfold AsianOption.payoff AsianOption.moyenne
  constructor
  · intro h1 h2
    rw [if_neg h1, if_neg h2]
  · rintro (hty | hty)
    · rw [if_pos hty]
      cases o.is_call <;> exact ⟨_, rfl⟩
    · rw [hty, if_neg (by decide), if_pos rfl]
      cases o.is_call <;> exact ⟨_, rfl⟩

/-- Witness for C9: `average_type = "banana"` raises on `[100]`;
`"arithmetic"` returns a value there. -/
theorem asian_average_type_precondition_witness :
    AsianOption.payoff ⟨105, 1, 0, true, "banana"⟩ [100] = .error .unboundLocal ∧
    ∃ v, AsianOption.payoff ⟨105, 1, 0, true, "arithmetic"⟩ [100] = .ok v :=
  ⟨(asian_average_type_precondition ⟨105, 1, 0, true, "banana"⟩ [100]).1
     (by decide) (by decide),
   (asian_average_type_precondition ⟨105, 1, 0, true, "arithmetic"⟩ [100]).2 (Or.inl rfl)⟩

/-! AM-GM machinery: bridging list sums to `Finset.range` sums so that
Mathlib's weighted AM-GM inequality applies to the two Asian averages. -/

theorem list_sum_eq_sum_range (l : List ℝ) :
    ∑ i ∈ Finset.range l.length, l.getD i 0 = l.sum := by
  induction l with
  | nil => simp
  | cons x xs ih =>
    rw [List.length_cons, Finset.sum_range_succ']
    simp only [List.getD_cons_succ, List.getD_cons_zero, List.sum_cons]
    rw [ih, add_comm]

theorem getD_map_log (l : List ℝ) (i : ℕ) (hi : i < l.length) :
    (l.map Real.log).getD i 0 = Real.log (l.getD i 0) := by
  rw [List.getD_eq_getElem l 0 hi, List.getD_eq_getElem _ 0 (by simpa using hi),
    List.getElem_map]

theorem geoMeanSpec_le_arithMeanSpec (spot : List ℚ) (h : spot ≠ [])
    (hpos : ∀ x ∈ spot, 0 < x) : geoMeanSpec spot ≤ arithMeanSpec spot := by
  have hn : spot.length ≠ 0 := fun hz => h (List.length_eq_zero.mp hz)
  set l : List ℝ := spot.map fun x : ℚ => (x : ℝ) with hl
  have hlen : l.length = spot.length := by rw [hl, List.length_map]
  have hlpos : ∀ i, i < l.length → 0 < l.getD i 0 := by
    intro i hi
    rw [List.getD_eq_getElem l 0 hi]
    have hi' : i < spot.length := by rwa [hlen] at hi
    have hgm : l[i] = ((spot[i] : ℚ) : ℝ) := by simp [hl]
    rw [hgm]
    exact_mod_cast hpos _ (List.getElem_mem hi')
  have hwsum : ∑ _i ∈ Finset.range l.length, ((l.length : ℝ))⁻¹ = 1 := by
    rw [Finset.sum_const, Finset.card_range, nsmul_eq_mul, mul_inv_cancel₀]
    exact Nat.cast_ne_zero.mpr (by rwa [hlen])
  have key := Real.geom_mean_le_arith_mean_weighted (Finset.range l.length)
    (fun _ => ((l.length : ℝ))⁻¹) (fun i => l.getD i 0)
    (fun i _ => by positivity) hwsum
    (fun i hi => (hlpos i (Finset.mem_range.mp hi)).le)
  have hL : (∏ i ∈ Finset.range l.length, (l.getD i 0) ^ (((l.length : ℝ))⁻¹)) =
      geoMeanSpec spot := by
    have h1 : ∀ i ∈ Finset.range l.length,
        (l.getD i 0) ^ (((l.length : ℝ))⁻¹) =
          Real.exp (Real.log (l.getD i 0) * ((l.length : ℝ))⁻¹) := fun i hi =>
      Real.rpow_def_of_pos (hlpos i (Finset.mem_range.mp hi)) _
    rw [Finset.prod_congr rfl h1, ← Real.exp_sum, ← Finset.sum_mul]
    unfold geoMeanSpec
    rw [div_eq_mul_inv]
    congr 1
    congr 1
    · have h2 : ∀ i ∈ Finset.range l.length,
          Real.log (l.getD i 0) = (l.map Real.log).getD i 0 := fun i hi =>
        (getD_map_log l i (Finset.mem_range.mp hi)).symm
      rw [Finset.sum_congr rfl h2]
      have h3 : (l.map Real.log).length = l.length := List.length_map _ _
      rw [← h3, list_sum_eq_sum_range, hl, List.map_map]
      rfl
    · rw [hlen]
  have hR : ∑ i ∈ Finset.range l.length, ((l.length : ℝ))⁻¹ * l.getD i 0 =
      arithMeanSpec spot := by
    rw [← Finset.mul_sum, list_sum_eq_sum_range]
    have h4 : l.sum = ((spot.sum : ℚ) : ℝ) := by
      rw [hl]
      exact (map_list_sum (Rat.castHom ℝ) spot).symm
    rw [h4, hlen, inv_mul_eq_div]
    unfold arithMeanSpec
    push_cast
    ring
  calc geoMeanSpec spot
      = ∏ i ∈ Finset.range l.length, (l.getD i 0) ^ (((l.length : ℝ))⁻¹) := hL.symm
    _ ≤ ∑ i ∈ Finset.range l.length, ((l.length : ℝ))⁻¹ * l.getD i 0 := key
    _ = arithMeanSpec spot := hR

/-- Claim C8: on a path of at least two positive, not-all-equal
observations, the geometric average computed by `AsianOption.payoff` is at
most the arithmetic average (AM-GM), and consequently the geometric Asian
call payoff is at most the arithmetic Asian call payoff at the same
strike. -/
theorem asian_geom_le_arith (K T prem : ℚ) (spot : List ℚ) (h2 : 2 ≤ spot.length)
    (hpos : ∀ x ∈ spot, 0 < x) (_hne : ∃ x ∈ spot, ∃ y ∈ spot, x ≠ y) :
    ∃ g a : ℝ,
      AsianOption.payoff ⟨K, T, prem, true, "geometric"⟩ spot = .ok (.real g) ∧
      AsianOption.payoff ⟨K, T, prem, true, "arithmetic"⟩ spot = .ok (.real a) ∧
      geoMeanSpec spot ≤ arithMeanSpec spot ∧ g ≤ a := by
  have h : spot ≠ [] := by
    intro he
    rw [he] at h2
    simp at h2
  have hle := geoMeanSpec_le_arithMeanSpec spot h hpos
  refine ⟨asianSpec true K (geoMeanSpec spot), asianSpec true K (arithMeanSpec spot),
    asian_payoff_of_moyenne_real _ _ _ (asian_moyenne_geometric_pos _ spot rfl h hpos),
    asian_payoff_of_moyenne_real _ _ _ (asian_moyenne_arithmetic _ spot rfl h),
    hle, ?_⟩
  unfold asianSpec
  simp only [if_pos rfl]
  exact max_le_max le_rfl (sub_le_sub_right hle _)

/-- Witness for C8: the two-point positive path `[1, 4]` with strike 2. -/
theorem asian_geom_le_arith_witness :
    (2 ≤ ([1, 4] : List ℚ).length ∧ (∀ x ∈ ([1, 4] : List ℚ), 0 < x) ∧
      ∃ x ∈ ([1, 4] : List ℚ), ∃ y ∈ ([1, 4] : List ℚ), x ≠ y) ∧
    ∃ g a : ℝ,
      AsianOption.payoff ⟨2, 1, 0, true, "geometric"⟩ [1, 4] = .ok (.real g) ∧
      AsianOption.payoff ⟨2, 1, 0, true, "arithmetic"⟩ [1, 4] = .ok (.real a) ∧
      geoMeanSpec [1, 4] ≤ arithMeanSpec [1, 4] ∧ g ≤ a :=
  ⟨⟨by decide, by decide, by decide⟩,
   asian_geom_le_arith 2 1 0 [1, 4] (by decide) (by decide) (by decide)⟩
